import Mathlib

set_option maxHeartbeats 1000000

namespace SshInscribe

/-!
# ssh-inscribe: verification of spec claims against the code

The CLI client configuration code (`src/cliclient/cmd/root.go`) is embedded
shallowly below.  The Go standard-library parsers it calls
(`time.ParseDuration`, `strconv.Atoi`, `strconv.ParseInt`) are external
collaborators and are taken as parameters returning `Option Int`; on a
parse error Go's parsers used here return the zero value together with the
error, which the code discards, so `none` is read back as `0` (`goParsed`).
-/

/-- Process environment as seen through Go's `os.Getenv`: an unset variable
reads as the empty string. -/
def Env : Type := String → String

/-- The fields of `client.Config` that `cliclient/cmd/root.go` sets, plus
nothing else.  Durations are nanosecond counts, as Go's `time.Duration`. -/
structure ClientConfig where
  URL : String := ""
  UseAgent : Bool := false
  Timeout : Int := 0
  Retries : Int := 0
  Debug : Bool := false
  Insecure : Bool := false
  Quiet : Bool := false
  LoginAuthEndpoints : List String := []
  IncludePrincipals : String := ""
  ExcludePrincipals : String := ""
  CertLifetime : Int := 0
  GenerateKeypairType : String := ""
  GenerateKeypairSize : Int := 0
deriving Repr, DecidableEq

/-- The initial `ClientConfig` literal (root.go lines 21-27). -/
def initialClientConfig : ClientConfig :=
  { UseAgent := true
    Timeout := 2000000000
    Retries := 3
    GenerateKeypairType := "rsa"
    GenerateKeypairSize := 2048 }

/-- Value read back from a Go call `v, _ := parse(s)`: on error the parsers
used by root.go return the zero value, which the code keeps. -/
def goParsed (r : Option Int) : Int := r.getD 0

/-- Character-level worker for `splitComma`. -/
def splitCommaAux : List Char → List Char → List String
  | [], acc => [String.mk acc.reverse]
  | c :: rest, acc =>
    if c = ',' then String.mk acc.reverse :: splitCommaAux rest []
    else splitCommaAux rest (c :: acc)

/-- Go's `strings.Split(s, ",")`: split at every comma, keeping empty
substrings; the empty string yields `[""]`. -/
def splitComma (s : String) : List String := splitCommaAux s.data []

/-- The `init` function of root.go (lines 65-205): computes every persistent
flag's default from the environment and registers it.  Registering a flag
stores its default into the bound variable, so when a flag is not given on
the command line the corresponding `ClientConfig` field (and the `logLevel`
variable, returned second) holds exactly the default computed here. -/
def initDefaults (env : Env) (parseDuration atoi parseInt : String → Option Int) :
    ClientConfig × String :=
  let cfg := initialClientConfig
  let logLevel := "info"
  -- "url" flag (lines 67-72)
  let cfg := { cfg with URL := (env "SSH_INSCRIBE_URL") }
  -- "timeout" flag (lines 74-83)
  let defTimeout :=
    if (env "SSH_INSCRIBE_TIMEOUT") ≠ "" then
      goParsed (parseDuration (env "SSH_INSCRIBE_TIMEOUT"))
    else cfg.Timeout
  let cfg := { cfg with Timeout := defTimeout }
  -- "retries" flag (lines 85-94)
  let retries :=
    if (env "SSH_INSCRIBE_RETRIES") ≠ "" then
      goParsed (atoi (env "SSH_INSCRIBE_RETRIES"))
    else cfg.Retries
  let cfg := { cfg with Retries := retries }
  -- "debug" flag (lines 96-104)
  let debugVal := if (env "SSH_INSCRIBE_DEBUG") ≠ "" then true else cfg.Debug
  let cfg := { cfg with Debug := debugVal }
  -- "insecure" flag (lines 106-114)
  let insecureVal := if (env "SSH_INSCRIBE_INSECURE") ≠ "" then true else cfg.Insecure
  let cfg := { cfg with Insecure := insecureVal }
  -- "loglevel" flag (lines 116-124)
  let logLevel :=
    if (env "SSH_INSCRIBE_LOGLEVEL") ≠ "" then (env "SSH_INSCRIBE_LOGLEVEL") else logLevel
  -- "quiet" flag (lines 126-135)
  let quietVal := if (env "SSH_INSCRIBE_QUIET") ≠ "" then true else cfg.Quiet
  let cfg := { cfg with Quiet := quietVal }
  -- "login" flag (lines 137-147)
  let defLoginAuthEndpoints : List String :=
    if (env "SSH_INSCRIBE_LOGIN_AUTH_ENDPOINTS") ≠ "" then
      splitComma (env "SSH_INSCRIBE_LOGIN_AUTH_ENDPOINTS")
    else []
  let cfg := { cfg with LoginAuthEndpoints := defLoginAuthEndpoints }
  -- "include" flag (lines 149-158)
  let defIncludePrincipals :=
    if (env "SSH_INSCRIBE_INCLUDE_PRINCIPALS") ≠ "" then
      (env "SSH_INSCRIBE_INCLUDE_PRINCIPALS")
    else ""
  let cfg := { cfg with IncludePrincipals := defIncludePrincipals }
  -- "exclude" flag (lines 160-169)
  let defExcludePrincipals :=
    if (env "SSH_INSCRIBE_EXCLUDE_PRINCIPALS") ≠ "" then
      (env "SSH_INSCRIBE_EXCLUDE_PRINCIPALS")
    else ""
  let cfg := { cfg with ExcludePrincipals := defExcludePrincipals }
  -- "expire" flag (lines 171-181)
  let defExpire :=
    if (env "SSH_INSCRIBE_EXPIRE") ≠ "" then
      goParsed (parseDuration (env "SSH_INSCRIBE_EXPIRE"))
    else 0
  let cfg := { cfg with CertLifetime := defExpire }
  -- "keytype" flag (lines 183-192)
  let keyTypeVal :=
    if (env "SSH_INSCRIBE_GENKEY_TYPE") ≠ "" then
      (env "SSH_INSCRIBE_GENKEY_TYPE")
    else cfg.GenerateKeypairType
  let cfg := { cfg with GenerateKeypairType := keyTypeVal }
  -- "keysize" flag (lines 194-204)
  let keySizeVal :=
    if (env "SSH_INSCRIBE_GENKEY_SIZE") ≠ "" then
      goParsed (parseInt (env "SSH_INSCRIBE_GENKEY_SIZE"))
    else cfg.GenerateKeypairSize
  let cfg := { cfg with GenerateKeypairSize := keySizeVal }
  (cfg, logLevel)

/-- Outcome of running a piece of CLI startup code: either it finished with
a value, or the process terminated through `os.Exit`. -/
inductive ExecResult (α : Type) where
  | ok (a : α)
  | exited (code : Nat)
deriving Repr, DecidableEq

/-- `rootInit` (root.go lines 30-36): configures logging; a failure of
`logging.Setup` (an external collaborator, modelled as `some err`) is
printed and the process exits with code 1. -/
def rootInit (setupErr : Option String) : ExecResult Unit :=
  match setupErr with
  | some _ => .exited 1
  | none => .ok ()

/-- Go's `strings.ToLower`, character by character (the subcommand names the
code compares against are ASCII). -/
def toLowerGo (s : String) : String := String.mk (s.data.map Char.toLower)

/-- `cmdIndex` as computed by `ignoreFlagsAfter` (root.go lines 45-50): the
loop keeps the index of the last argument whose `strings.ToLower` image is
one of `cmds`; it stays `0` when no argument matches. -/
def cmdIndex (cmds osArgs : List String) : Nat :=
  osArgs.enum.foldl (fun acc p => if cmds.contains (toLowerGo p.2) then p.1 else acc) 0

/-- The argument vector built by `ignoreFlagsAfter` (root.go lines 52-56):
a literal `--` is injected right after position `cmdIndex`. -/
def injectSeparator (cmds osArgs : List String) : List String :=
  osArgs.take (cmdIndex cmds osArgs + 1) ++ ["--"] ++ osArgs.drop (cmdIndex cmds osArgs + 1)

/-- `ignoreFlagsAfter` (root.go lines 40-63): builds the injected argument
vector, parses the persistent flags over it (a parse failure of the external
pflag machinery is modelled as `some err`), exits with code 1 on a parse
error, and finally re-runs `rootInit`. -/
def ignoreFlagsAfter (cmds osArgs : List String) (parseErr : List String → Option String)
    (setupErr : Option String) : ExecResult (List String) :=
  let args := injectSeparator cmds osArgs
  match parseErr args with
  | some _ => .exited 1
  | none =>
    match rootInit setupErr with
    | .exited c => .exited c
    | .ok _ => .ok args

/-- Modelled from the spec: the flag scanning of the vendored pflag library
(not under src/).  Parsing stops at the first `--` terminator; every
argument after it is positional and is never examined as a flag.  This
captures exactly which arguments the parser scans for flags. -/
def scannedArgs (args : List String) : List String :=
  args.takeWhile (fun a => a ≠ "--")

/-! ### Field characterisations of `initDefaults` -/

lemma initDefaults_URL (env : Env) (pd a pi : String → Option Int) :
    (initDefaults env pd a pi).1.URL = env "SSH_INSCRIBE_URL" := rfl

lemma initDefaults_Timeout (env : Env) (pd a pi : String → Option Int) :
    (initDefaults env pd a pi).1.Timeout =
      if (env "SSH_INSCRIBE_TIMEOUT") ≠ "" then
        goParsed (pd (env "SSH_INSCRIBE_TIMEOUT"))
      else 2000000000 := rfl

lemma initDefaults_Retries (env : Env) (pd a pi : String → Option Int) :
    (initDefaults env pd a pi).1.Retries =
      if (env "SSH_INSCRIBE_RETRIES") ≠ "" then
        goParsed (a (env "SSH_INSCRIBE_RETRIES"))
      else 3 := rfl

lemma initDefaults_Debug (env : Env) (pd a pi : String → Option Int) :
    (initDefaults env pd a pi).1.Debug =
      if (env "SSH_INSCRIBE_DEBUG") ≠ "" then true else false := rfl

lemma initDefaults_Insecure (env : Env) (pd a pi : String → Option Int) :
    (initDefaults env pd a pi).1.Insecure =
      if (env "SSH_INSCRIBE_INSECURE") ≠ "" then true else false := rfl

lemma initDefaults_logLevel (env : Env) (pd a pi : String → Option Int) :
    (initDefaults env pd a pi).2 =
      if (env "SSH_INSCRIBE_LOGLEVEL") ≠ "" then (env "SSH_INSCRIBE_LOGLEVEL")
      else "info" := rfl

lemma initDefaults_Quiet (env : Env) (pd a pi : String → Option Int) :
    (initDefaults env pd a pi).1.Quiet =
      if (env "SSH_INSCRIBE_QUIET") ≠ "" then true else false := rfl

lemma initDefaults_Login (env : Env) (pd a pi : String → Option Int) :
    (initDefaults env pd a pi).1.LoginAuthEndpoints =
      if (env "SSH_INSCRIBE_LOGIN_AUTH_ENDPOINTS") ≠ "" then
        splitComma (env "SSH_INSCRIBE_LOGIN_AUTH_ENDPOINTS")
      else [] := rfl

lemma initDefaults_Include (env : Env) (pd a pi : String → Option Int) :
    (initDefaults env pd a pi).1.IncludePrincipals =
      if (env "SSH_INSCRIBE_INCLUDE_PRINCIPALS") ≠ "" then
        (env "SSH_INSCRIBE_INCLUDE_PRINCIPALS")
      else "" := rfl

lemma initDefaults_Exclude (env : Env) (pd a pi : String → Option Int) :
    (initDefaults env pd a pi).1.ExcludePrincipals =
      if (env "SSH_INSCRIBE_EXCLUDE_PRINCIPALS") ≠ "" then
        (env "SSH_INSCRIBE_EXCLUDE_PRINCIPALS")
      else "" := rfl

lemma initDefaults_CertLifetime (env : Env) (pd a pi : String → Option Int) :
    (initDefaults env pd a pi).1.CertLifetime =
      if (env "SSH_INSCRIBE_EXPIRE") ≠ "" then
        goParsed (pd (env "SSH_INSCRIBE_EXPIRE"))
      else 0 := rfl

lemma initDefaults_KeyType (env : Env) (pd a pi : String → Option Int) :
    (initDefaults env pd a pi).1.GenerateKeypairType =
      if (env "SSH_INSCRIBE_GENKEY_TYPE") ≠ "" then
        (env "SSH_INSCRIBE_GENKEY_TYPE")
      else "rsa" := rfl

lemma initDefaults_KeySize (env : Env) (pd a pi : String → Option Int) :
    (initDefaults env pd a pi).1.GenerateKeypairSize =
      if (env "SSH_INSCRIBE_GENKEY_SIZE") ≠ "" then
        goParsed (pi (env "SSH_INSCRIBE_GENKEY_SIZE"))
      else 2048 := rfl

/-! ### Sample inputs used by witnesses -/

/-- An environment with every `SSH_INSCRIBE_*` variable of root.go set to a
well-formed value. -/
def sampleEnv : Env := fun k =>
  if k = "SSH_INSCRIBE_TIMEOUT" then "5s"
  else if k = "SSH_INSCRIBE_RETRIES" then "7"
  else if k = "SSH_INSCRIBE_DEBUG" then "1"
  else if k = "SSH_INSCRIBE_INSECURE" then "yes"
  else if k = "SSH_INSCRIBE_LOGLEVEL" then "debug"
  else if k = "SSH_INSCRIBE_QUIET" then "true"
  else if k = "SSH_INSCRIBE_LOGIN_AUTH_ENDPOINTS" then "ldap,oidc"
  else if k = "SSH_INSCRIBE_INCLUDE_PRINCIPALS" then "dev*"
  else if k = "SSH_INSCRIBE_EXCLUDE_PRINCIPALS" then "ops*"
  else if k = "SSH_INSCRIBE_EXPIRE" then "10m"
  else if k = "SSH_INSCRIBE_GENKEY_TYPE" then "ed25519"
  else if k = "SSH_INSCRIBE_GENKEY_SIZE" then "4096"
  else ""

/-- A duration parser defined on the two duration strings of `sampleEnv`
(nanosecond values, as Go's `time.ParseDuration`). -/
def sampleDuration : String → Option Int := fun s =>
  if s = "5s" then some 5000000000
  else if s = "10m" then some 600000000000
  else none

/-- An integer parser defined on the integer strings of `sampleEnv`. -/
def sampleAtoi : String → Option Int := fun s =>
  if s = "7" then some 7 else if s = "4096" then some 4096 else none

/-- An environment whose parseable variables hold malformed values. -/
def badEnv : Env := fun k =>
  if k = "SSH_INSCRIBE_TIMEOUT" then "bogus"
  else if k = "SSH_INSCRIBE_RETRIES" then "threeish"
  else if k = "SSH_INSCRIBE_GENKEY_SIZE" then "2k48"
  else ""

/-! ### Claims about the CLI configuration -/

/-- C1: every `SSH_INSCRIBE_*` variable of root.go that is set to a
well-formed value at process start determines the corresponding flag default
(hence the configuration field when the flag is not given): TIMEOUT and
EXPIRE parsed as durations, RETRIES and GENKEY_SIZE as integers,
DEBUG/INSECURE/QUIET made true, LOGLEVEL/INCLUDE/EXCLUDE/GENKEY_TYPE taken
verbatim, LOGIN_AUTH_ENDPOINTS split on commas. -/
theorem env_wellformed_values_set_defaults (env : Env) (pd a pi : String → Option Int) :
    ((env "SSH_INSCRIBE_TIMEOUT") ≠ "" →
      ∀ d, pd (env "SSH_INSCRIBE_TIMEOUT") = some d →
        (initDefaults env pd a pi).1.Timeout = d)
    ∧ ((env "SSH_INSCRIBE_RETRIES") ≠ "" →
      ∀ n, a (env "SSH_INSCRIBE_RETRIES") = some n →
        (initDefaults env pd a pi).1.Retries = n)
    ∧ ((env "SSH_INSCRIBE_DEBUG") ≠ "" → (initDefaults env pd a pi).1.Debug = true)
    ∧ ((env "SSH_INSCRIBE_INSECURE") ≠ "" → (initDefaults env pd a pi).1.Insecure = true)
    ∧ ((env "SSH_INSCRIBE_LOGLEVEL") ≠ "" →
        (initDefaults env pd a pi).2 = env "SSH_INSCRIBE_LOGLEVEL")
    ∧ ((env "SSH_INSCRIBE_QUIET") ≠ "" → (initDefaults env pd a pi).1.Quiet = true)
    ∧ ((env "SSH_INSCRIBE_LOGIN_AUTH_ENDPOINTS") ≠ "" →
        (initDefaults env pd a pi).1.LoginAuthEndpoints =
          splitComma (env "SSH_INSCRIBE_LOGIN_AUTH_ENDPOINTS"))
    ∧ ((env "SSH_INSCRIBE_INCLUDE_PRINCIPALS") ≠ "" →
        (initDefaults env pd a pi).1.IncludePrincipals = env "SSH_INSCRIBE_INCLUDE_PRINCIPALS")
    ∧ ((env "SSH_INSCRIBE_EXCLUDE_PRINCIPALS") ≠ "" →
        (initDefaults env pd a pi).1.ExcludePrincipals = env "SSH_INSCRIBE_EXCLUDE_PRINCIPALS")
    ∧ ((env "SSH_INSCRIBE_EXPIRE") ≠ "" →
      ∀ d, pd (env "SSH_INSCRIBE_EXPIRE") = some d →
        (initDefaults env pd a pi).1.CertLifetime = d)
    ∧ ((env "SSH_INSCRIBE_GENKEY_TYPE") ≠ "" →
        (initDefaults env pd a pi).1.GenerateKeypairType = env "SSH_INSCRIBE_GENKEY_TYPE")
    ∧ ((env "SSH_INSCRIBE_GENKEY_SIZE") ≠ "" →
      ∀ n, pi (env "SSH_INSCRIBE_GENKEY_SIZE") = some n →
        (initDefaults env pd a pi).1.GenerateKeypairSize = n) := by
  refine ⟨?_, ?_, ?_, ?_, ?_, ?_, ?_, ?_, ?_, ?_, ?_, ?_⟩
  · intro h d hd; rw [initDefaults_Timeout, if_pos h, hd]; rfl
  · intro h n hn; rw [initDefaults_Retries, if_pos h, hn]; rfl
  · intro h; rw [initDefaults_Debug, if_pos h]
  · intro h; rw [initDefaults_Insecure, if_pos h]
  · intro h; rw [initDefaults_logLevel, if_pos h]
  · intro h; rw [initDefaults_Quiet, if_pos h]
  · intro h; rw [initDefaults_Login, if_pos h]
  · intro h; rw [initDefaults_Include, if_pos h]
  · intro h; rw [initDefaults_Exclude, if_pos h]
  · intro h d hd; rw [initDefaults_CertLifetime, if_pos h, hd]; rfl
  · intro h; rw [initDefaults_KeyType, if_pos h]
  · intro h n hn; rw [initDefaults_KeySize, if_pos h, hn]; rfl

/-- Witness for C1 at a concrete fully-set environment. -/
theorem env_wellformed_values_set_defaults_witness :
    (initDefaults sampleEnv sampleDuration sampleAtoi sampleAtoi).1.Timeout = 5000000000
    ∧ (initDefaults sampleEnv sampleDuration sampleAtoi sampleAtoi).1.Retries = 7
    ∧ (initDefaults sampleEnv sampleDuration sampleAtoi sampleAtoi).1.Debug = true
    ∧ (initDefaults sampleEnv sampleDuration sampleAtoi sampleAtoi).1.Insecure = true
    ∧ (initDefaults sampleEnv sampleDuration sampleAtoi sampleAtoi).2 = "debug"
    ∧ (initDefaults sampleEnv sampleDuration sampleAtoi sampleAtoi).1.Quiet = true
    ∧ (initDefaults sampleEnv sampleDuration sampleAtoi sampleAtoi).1.LoginAuthEndpoints =
        ["ldap", "oidc"]
    ∧ (initDefaults sampleEnv sampleDuration sampleAtoi sampleAtoi).1.IncludePrincipals = "dev*"
    ∧ (initDefaults sampleEnv sampleDuration sampleAtoi sampleAtoi).1.ExcludePrincipals = "ops*"
    ∧ (initDefaults sampleEnv sampleDuration sampleAtoi sampleAtoi).1.CertLifetime = 600000000000
    ∧ (initDefaults sampleEnv sampleDuration sampleAtoi sampleAtoi).1.GenerateKeypairType =
        "ed25519"
    ∧ (initDefaults sampleEnv sampleDuration sampleAtoi sampleAtoi).1.GenerateKeypairSize =
        4096 := by
  have h := env_wellformed_values_set_defaults sampleEnv sampleDuration sampleAtoi sampleAtoi
  refine ⟨h.1 (by decide) _ (by decide), h.2.1 (by decide) _ (by decide),
    h.2.2.1 (by decide), h.2.2.2.1 (by decide),
    (h.2.2.2.2.1 (by decide)).trans (by decide), h.2.2.2.2.2.1 (by decide),
    (h.2.2.2.2.2.2.1 (by decide)).trans (by decide),
    (h.2.2.2.2.2.2.2.1 (by decide)).trans (by decide),
    (h.2.2.2.2.2.2.2.2.1 (by decide)).trans (by decide),
    h.2.2.2.2.2.2.2.2.2.1 (by decide) _ (by decide),
    (h.2.2.2.2.2.2.2.2.2.2.1 (by decide)).trans (by decide),
    h.2.2.2.2.2.2.2.2.2.2.2 (by decide) _ (by decide)⟩

/-- C2: the default of the `--url` flag is exactly the value of
`SSH_INSCRIBE_URL` at process start (the empty string when unset, since Go's
`os.Getenv` reads unset variables as `""`); hence without `--url` on the
command line, `ClientConfig.URL` is that environment value. -/
theorem url_default_is_env (env : Env) (pd a pi : String → Option Int) :
    (initDefaults env pd a pi).1.URL = env "SSH_INSCRIBE_URL" :=
  initDefaults_URL env pd a pi

/-- C9: the boolean options Debug, Insecure and Quiet become true for every
non-empty value of the corresponding variable (including "false" or "0"),
and stay false exactly when the variable is unset or empty. -/
theorem boolean_env_nonempty_means_true (env : Env) (pd a pi : String → Option Int) :
    ((initDefaults env pd a pi).1.Debug = true ↔ (env "SSH_INSCRIBE_DEBUG") ≠ "")
    ∧ ((initDefaults env pd a pi).1.Insecure = true ↔ (env "SSH_INSCRIBE_INSECURE") ≠ "")
    ∧ ((initDefaults env pd a pi).1.Quiet = true ↔ (env "SSH_INSCRIBE_QUIET") ≠ "") := by
  refine ⟨?_, ?_, ?_⟩
  · rw [initDefaults_Debug]; split <;> simp_all
  · rw [initDefaults_Insecure]; split <;> simp_all
  · rw [initDefaults_Quiet]; split <;> simp_all

/-- C8: a set but malformed `SSH_INSCRIBE_TIMEOUT`, `SSH_INSCRIBE_RETRIES`
or `SSH_INSCRIBE_GENKEY_SIZE` silently makes the flag default the parser's
zero value (0), not the built-in default (2s, 3, 2048). -/
theorem malformed_env_parse_zero_default (env : Env) (pd a pi : String → Option Int) :
    ((env "SSH_INSCRIBE_TIMEOUT") ≠ "" → pd (env "SSH_INSCRIBE_TIMEOUT") = none →
      (initDefaults env pd a pi).1.Timeout = 0)
    ∧ ((env "SSH_INSCRIBE_RETRIES") ≠ "" → a (env "SSH_INSCRIBE_RETRIES") = none →
      (initDefaults env pd a pi).1.Retries = 0)
    ∧ ((env "SSH_INSCRIBE_GENKEY_SIZE") ≠ "" → pi (env "SSH_INSCRIBE_GENKEY_SIZE") = none →
      (initDefaults env pd a pi).1.GenerateKeypairSize = 0) := by
  refine ⟨?_, ?_, ?_⟩
  · intro h hp; rw [initDefaults_Timeout, if_pos h, hp]; rfl
  · intro h hp; rw [initDefaults_Retries, if_pos h, hp]; rfl
  · intro h hp; rw [initDefaults_KeySize, if_pos h, hp]; rfl

/-- Witness for C8 at a concrete malformed environment (the parsers reject
every string). -/
theorem malformed_env_parse_zero_default_witness :
    (initDefaults badEnv (fun _ => none) (fun _ => none) (fun _ => none)).1.Timeout = 0
    ∧ (initDefaults badEnv (fun _ => none) (fun _ => none) (fun _ => none)).1.Retries = 0
    ∧ (initDefaults badEnv (fun _ => none) (fun _ => none)
        (fun _ => none)).1.GenerateKeypairSize = 0 := by
  have h := malformed_env_parse_zero_default badEnv (fun _ => none) (fun _ => none) (fun _ => none)
  exact ⟨h.1 (by decide) rfl, h.2.1 (by decide) rfl, h.2.2 (by decide) rfl⟩

/-- C3: a failure during CLI startup configuration — `logging.Setup` failing
inside `rootInit`, or persistent-flag parsing failing inside
`ignoreFlagsAfter` — terminates the process with exit code 1, and these
code paths never exit with any other code. -/
theorem startup_failure_exits_one (cmds osArgs : List String)
    (parseErr : List String → Option String) (setupErr : Option String) :
    (∀ c, rootInit setupErr = .exited c → c = 1)
    ∧ (setupErr ≠ none → rootInit setupErr = .exited 1)
    ∧ (∀ c, ignoreFlagsAfter cmds osArgs parseErr setupErr = .exited c → c = 1)
    ∧ (parseErr (injectSeparator cmds osArgs) ≠ none →
        ignoreFlagsAfter cmds osArgs parseErr setupErr = .exited 1) := by
  refine ⟨?_, ?_, ?_, ?_⟩
  · intro c h
    cases hs : setupErr <;> rw [hs] at h <;> simp [rootInit] at h
    omega
  · intro h
    cases hs : setupErr
    · exact absurd hs h
    · rfl
  · intro c h
    cases hp : parseErr (injectSeparator cmds osArgs) <;>
      simp [ignoreFlagsAfter, hp] at h
    · cases hs : setupErr <;> rw [hs] at h <;> simp [rootInit] at h
      omega
    · omega
  · intro hp
    cases hq : parseErr (injectSeparator cmds osArgs)
    · exact absurd hq hp
    · simp [ignoreFlagsAfter, hq]

/-- Witness for C3: a concrete logging failure and a concrete flag-parse
failure both exit with code 1. -/
theorem startup_failure_exits_one_witness :
    rootInit (some "boom") = .exited 1
    ∧ ignoreFlagsAfter ["sign"] ["sshi", "sign", "-x"] (fun _ => some "bad flag")
        (some "boom") = .exited 1 := by
  have h := startup_failure_exits_one ["sign"] ["sshi", "sign", "-x"]
    (fun _ => some "bad flag") (some "boom")
  exact ⟨h.2.1 (by decide), h.2.2.2 (by decide)⟩

/-! ### Characterising `cmdIndex` and the injected separator -/

/-- Abstract form of the root.go loop: fold over an index-annotated suffix,
keeping the last index whose entry satisfies `p`. -/
def lastIdxFrom (p : String → Bool) (l : List String) (n acc : Nat) : Nat :=
  (l.enumFrom n).foldl (fun a q => if p q.2 then q.1 else a) acc

lemma lastIdxFrom_cons (p : String → Bool) (x : String) (t : List String) (n acc : Nat) :
    lastIdxFrom p (x :: t) n acc = lastIdxFrom p t (n + 1) (if p x then n else acc) := rfl

lemma cmdIndex_eq_lastIdxFrom (cmds osArgs : List String) :
    cmdIndex cmds osArgs =
      lastIdxFrom (fun s => cmds.contains (toLowerGo s)) osArgs 0 0 := rfl

/-- The fold keeps its accumulator, or lands on an index of a satisfying
entry, and dominates every index of a satisfying entry. -/
lemma lastIdxFrom_spec (p : String → Bool) :
    ∀ (l : List String) (n acc : Nat),
      (lastIdxFrom p l n acc = acc
        ∨ (n ≤ lastIdxFrom p l n acc ∧ lastIdxFrom p l n acc < n + l.length
            ∧ p (l.getD (lastIdxFrom p l n acc - n) "") = true))
      ∧ (∀ i, n ≤ i → i < n + l.length → p (l.getD (i - n) "") = true →
          i ≤ lastIdxFrom p l n acc) := by
  intro l
  induction l with
  | nil =>
    intro n acc
    exact ⟨Or.inl rfl, fun i h1 h2 _ => by simp at h2; omega⟩
  | cons x t ih =>
    intro n acc
    rw [lastIdxFrom_cons]
    obtain ⟨ihc, ihb⟩ := ih (n + 1) (if p x then n else acc)
    constructor
    · rcases ihc with h | ⟨h1, h2, h3⟩
      · by_cases hp : p x = true
        · right
          rw [h, if_pos hp]
          refine ⟨le_refl n, by simp, ?_⟩
          simpa using hp
        · left
          rw [h, if_neg hp]
      · right
        refine ⟨by omega, by simp; omega, ?_⟩
        have hd : (x :: t).getD (lastIdxFrom p t (n + 1) (if p x then n else acc) - n) "" =
            t.getD (lastIdxFrom p t (n + 1) (if p x then n else acc) - (n + 1)) "" := by
          have he : lastIdxFrom p t (n + 1) (if p x then n else acc) - n =
              (lastIdxFrom p t (n + 1) (if p x then n else acc) - (n + 1)) + 1 := by omega
          rw [he, List.getD_cons_succ]
        rw [hd]
        exact h3
    · intro i h1 h2 h3
      by_cases hi : i = n
      · subst hi
        have hp : p x = true := by simpa using h3
        rcases ihc with h | ⟨h1', _, _⟩
        · rw [h, if_pos hp]
        · omega
      · have hn1 : n + 1 ≤ i := by omega
        have hd : (x :: t).getD (i - n) "" = t.getD (i - (n + 1)) "" := by
          have he : i - n = (i - (n + 1)) + 1 := by omega
          rw [he, List.getD_cons_succ]
        refine ihb i hn1 (by simp at h2 ⊢; omega) ?_
        rw [← hd]
        exact h3

/-- Arguments scanned for flags out of `xs ++ "--" :: ys` all come from
`xs`: the parser stops at the injected terminator. -/
lemma scannedArgs_stop_at_terminator (ys : List String) :
    ∀ (xs : List String), ∀ arg ∈ scannedArgs (xs ++ "--" :: ys), arg ∈ xs := by
  intro xs
  induction xs with
  | nil =>
    intro arg h
    simp [scannedArgs, List.takeWhile_cons] at h
  | cons x t ih =>
    intro arg h
    rw [List.cons_append] at h
    simp only [scannedArgs, List.takeWhile_cons] at h
    by_cases hx : x = "--"
    · rw [if_neg (by simp [hx])] at h
      simp at h
    · rw [if_pos (by simp [hx])] at h
      rcases List.mem_cons.mp h with h | h
      · exact h ▸ List.mem_cons_self x t
      · exact List.mem_cons_of_mem x (ih arg h)

/-- C10: `ignoreFlagsAfter` (i) computes `cmdIndex` as the last index whose
lowercased argument is one of the given subcommand names, staying 0 when
none matches, (ii) parses the vector with `--` inserted immediately after
that position, (iii) so no argument after that position is ever scanned as
a flag, and (iv) re-runs `rootInit` after a successful parse. -/
theorem separator_after_last_subcommand (cmds osArgs : List String)
    (parseErr : List String → Option String) (setupErr : Option String) :
    (∀ i, i < osArgs.length → cmds.contains (toLowerGo (osArgs.getD i "")) = true →
        i ≤ cmdIndex cmds osArgs)
    ∧ (cmdIndex cmds osArgs = 0
        ∨ (cmdIndex cmds osArgs < osArgs.length
            ∧ cmds.contains (toLowerGo (osArgs.getD (cmdIndex cmds osArgs) "")) = true))
    ∧ injectSeparator cmds osArgs =
        osArgs.take (cmdIndex cmds osArgs + 1) ++ ["--"]
          ++ osArgs.drop (cmdIndex cmds osArgs + 1)
    ∧ (∀ arg ∈ scannedArgs (injectSeparator cmds osArgs),
        arg ∈ osArgs.take (cmdIndex cmds osArgs + 1))
    ∧ (parseErr (injectSeparator cmds osArgs) = none →
        ignoreFlagsAfter cmds osArgs parseErr setupErr
          = match rootInit setupErr with
            | .ok _ => .ok (injectSeparator cmds osArgs)
            | .exited c => .exited c) := by
  obtain ⟨hcases, hbound⟩ :=
    lastIdxFrom_spec (fun s => cmds.contains (toLowerGo s)) osArgs 0 0
  refine ⟨?_, ?_, rfl, ?_, ?_⟩
  · intro i h1 h2
    rw [cmdIndex_eq_lastIdxFrom]
    exact hbound i (Nat.zero_le i) (by omega) (by simpa using h2)
  · rw [cmdIndex_eq_lastIdxFrom]
    rcases hcases with h | ⟨_, h2, h3⟩
    · exact Or.inl h
    · exact Or.inr ⟨by omega, by simpa using h3⟩
  · intro arg h
    have he : injectSeparator cmds osArgs =
        osArgs.take (cmdIndex cmds osArgs + 1)
          ++ "--" :: osArgs.drop (cmdIndex cmds osArgs + 1) := by
      simp [injectSeparator]
    rw [he] at h
    exact scannedArgs_stop_at_terminator _ _ arg h
  · intro hp
    cases hs : setupErr <;>
      simp [ignoreFlagsAfter, hp, rootInit, hs]

/-- Witness for C10: concrete argument vector `sshi SIGN host -p` with
subcommand name `sign`; the separator lands after position 1 and parsing
succeeds into the injected vector. -/
theorem separator_after_last_subcommand_witness :
    1 ≤ cmdIndex ["sign"] ["sshi", "SIGN", "host", "-p"]
    ∧ ignoreFlagsAfter ["sign"] ["sshi", "SIGN", "host", "-p"] (fun _ => none) none
        = .ok ["sshi", "SIGN", "--", "host", "-p"] := by
  have h := separator_after_last_subcommand ["sign"] ["sshi", "SIGN", "host", "-p"]
    (fun _ => none) none
  refine ⟨h.1 1 (by decide) (by decide), ?_⟩
  exact (h.2.2.2.2 rfl).trans (by decide)

/-!
## Server-side model

The signing server's source is not under src/ (only the CLI client is), so
the definitions below are modelled from the spec: the data model (spec §3),
identity merge (§4.A), the session state machine (§4.E) and the signing
state machine (§4.F).
-/

/-- Modelled from the spec: an `Identity` produced by an auth backend
(spec §3); claims and timestamps are not needed by the claims below. -/
structure Identity where
  subject : String
  principals : List String
  authenticatorId : String
deriving Repr, DecidableEq

/-- Modelled from the spec: server authenticator configuration
(`AuthenticatorSpec`, spec §3). -/
structure AuthenticatorSpec where
  id : String
  type : String
  required : Bool
  order : Int
  principalsAllow : Option (List String) := none
deriving Repr, DecidableEq

/-- Modelled from the spec: the certificate template handed to a signer
(spec §4.D, §4.F). -/
structure CertTemplate where
  principals : List String
  validAfter : Nat
  validBefore : Nat
  keyId : String
  pubkey : String
deriving Repr, DecidableEq

/-- Modelled from the spec: an issued certificate — its template data plus
the signer's signature (spec §3, `Certificate`). -/
structure Cert where
  tpl : CertTemplate
  signature : String
deriving Repr, DecidableEq

/-- Modelled from the spec: error kinds (spec §7) together with the named
failures `NoEligiblePrincipals` (§4.A) and `UnknownAuthenticator` (§4.E). -/
inductive SrvError where
  | badRequest | unauthenticated | authFailed | policyDenied | notReady
  | signerSealed | upstreamUnavailable | timeout | internal
  | noEligiblePrincipals | unknownAuthenticator
deriving Repr, DecidableEq

/-- Modelled from the spec: server configuration for one realm — the
authenticator list, the glob matcher (an external collaborator, spec §1)
and the signer backend (spec §4.D), both taken as opaque functions. -/
structure ServerConfig where
  auths : List AuthenticatorSpec
  globMatch : String → String → Bool
  signer : CertTemplate → Cert

/-- Modelled from the spec: session lifecycle states (spec §4.E); `issued`
is the diagram's `Signed`, `ended` covers destruction (TTL expiry or
logout). -/
inductive SessState where
  | created | awaitAuth | ready | issued | ended
deriving Repr, DecidableEq

/-- Modelled from the spec: the server-side session (`AuthContext`,
spec §3); `completed` is derived from `identities` (an authenticator is
completed iff an identity of it exists). -/
structure AuthContext where
  createdAt : Nat
  expiresAt : Nat
  identities : List Identity
  pubkey : Option String
  certificate : Option Cert
  state : SessState
deriving Repr, DecidableEq

/-- Ids of the authenticators with `required = true`. -/
def requiredIds (auths : List AuthenticatorSpec) : List String :=
  (auths.filter (·.required)).map (·.id)

/-- The completed-authenticator set of a session, derived from its
identities (spec §3 invariant). -/
def completedIds (identities : List Identity) : List String :=
  identities.map (·.authenticatorId)

/-- Modelled from the spec: the `Ready` gate — every required authenticator
has a completed identity (spec §4.E). -/
def readyCheck (auths : List AuthenticatorSpec) (identities : List Identity) : Bool :=
  (requiredIds auths).all (fun r => (completedIds identities).contains r)

/-- Modelled from the spec: step 1 of the identity merge (§4.A) — an
identity contributes its principals minus those its backend's
`principals_allow` list filters out. -/
def allowedPrincipals (auths : List AuthenticatorSpec) (ident : Identity) : List String :=
  match auths.find? (fun a => a.id = ident.authenticatorId) with
  | some a =>
    match a.principalsAllow with
    | some allow => ident.principals.filter (fun p => allow.contains p)
    | none => ident.principals
  | none => ident.principals

/-- Union (deduplicated) of the allowed principals of all identities
(spec §4.A step 1). -/
def basePrincipals (auths : List AuthenticatorSpec) (ids : List Identity) : List String :=
  ((ids.map (allowedPrincipals auths)).flatten).dedup

/-- Modelled from the spec: include first (keep matches), then exclude
(drop matches); an empty glob passes everything (spec §4.A step 2, §9). -/
def applyIncludeExclude (globMatch : String → String → Bool)
    (inc exc : String) (ps : List String) : List String :=
  let kept := if inc = "" then ps else ps.filter (fun p => globMatch inc p)
  if exc = "" then kept else kept.filter (fun p => !(globMatch exc p))

/-- The effective principal set of a signing request (spec §4.A). -/
def effectivePrincipals (C : ServerConfig) (inc exc : String) (ids : List Identity) :
    List String :=
  applyIncludeExclude C.globMatch inc exc (basePrincipals C.auths ids)

/-- Modelled from the spec: the effective set must be non-empty, otherwise
signing fails with `NoEligiblePrincipals` (spec §4.A step 3). -/
def selectPrincipals (C : ServerConfig) (inc exc : String) (ids : List Identity) :
    Except SrvError (List String) :=
  let ps := effectivePrincipals C inc exc ids
  if ps.isEmpty then .error .noEligiblePrincipals else .ok ps

/-- Modelled from the spec: a certificate request (spec §3). -/
structure CertRequest where
  lifetime : Nat
  includeGlob : String := ""
  excludeGlob : String := ""
deriving Repr, DecidableEq

/-- Code-point lexicographic order on character lists. -/
def charListLe : List Char → List Char → Bool
  | [], _ => true
  | _ :: _, [] => false
  | x :: xs, y :: ys =>
    if x.toNat < y.toNat then true
    else if y.toNat < x.toNat then false
    else charListLe xs ys

/-- Byte-wise (code-point) lexicographic order on strings, as Go compares
strings. -/
def strLeGo (a b : String) : Bool :=
  charListLe a.data b.data

/-- Sort a list of strings lexicographically. -/
def sortStrings (l : List String) : List String :=
  l.insertionSort (fun a b => strLeGo a b = true)

/-- Modelled from the spec: the stable key id — subject of the first
required identity, a slash, and the sorted authenticator ids (§4.A step 4). -/
def sessionKeyId (C : ServerConfig) (ids : List Identity) : String :=
  let subj :=
    match ids.find? (fun i => (requiredIds C.auths).contains i.authenticatorId) with
    | some i => i.subject
    | none => ""
  subj ++ "/" ++ String.intercalate "," (sortStrings ((completedIds ids).dedup))

/-- Modelled from the spec: `get_cert` (spec §4.F with §4.E reachability):
an expired or destroyed session is unreachable; a session that already
holds a certificate returns it unchanged; otherwise the session must be
`Ready`, the effective principals are computed and must be non-empty, the
signer is invoked, and the certificate is attached to the session. -/
def getCert (C : ServerConfig) (req : CertRequest) (now : Nat) (s : AuthContext) :
    Except SrvError (Cert × AuthContext) :=
  if s.expiresAt ≤ now ∨ s.state = .ended then .error .unauthenticated
  else
    match s.certificate with
    | some c => .ok (c, s)
    | none =>
      if s.state ≠ .ready then .error .notReady
      else
        match selectPrincipals C req.includeGlob req.excludeGlob s.identities with
        | .error e => .error e
        | .ok ps =>
          let tpl : CertTemplate :=
            { principals := ps
              validAfter := now - 30
              validBefore := now + req.lifetime
              keyId := sessionKeyId C s.identities
              pubkey := s.pubkey.getD "" }
          let c := C.signer tpl
          .ok (c, { s with certificate := some c, state := .issued })

/-- Modelled from the spec: the operations a client can drive against one
session (spec §4.E diagram and §4.G endpoints). -/
inductive Op where
  | providePubkey (k : String)
  | authenticate (aid : String) (ident : Identity)
  | getCertOp (req : CertRequest)
  | logout
deriving Repr

/-- Modelled from the spec: one transition of the session state machine
(spec §4.E).  Every operation on an expired or destroyed session fails
(`Unauthenticated`, spec §5 and §7); the pubkey may be set only once
(spec §3 invariant); authentication appends an identity and marks the
session `Ready` exactly when every required authenticator is completed. -/
def step (C : ServerConfig) (now : Nat) (op : Op) (s : AuthContext) :
    Except SrvError AuthContext :=
  if s.expiresAt ≤ now ∨ s.state = .ended then .error .unauthenticated
  else
    match op with
    | .providePubkey k =>
      if s.state = .created ∧ s.pubkey = none then
        .ok { s with pubkey := some k, state := .awaitAuth }
      else .error .badRequest
    | .authenticate aid ident =>
      if ¬(s.state = .awaitAuth ∨ s.state = .ready) then .error .notReady
      else if ¬(C.auths.any (fun a => a.id = aid)) then .error .unknownAuthenticator
      else if ident.authenticatorId ≠ aid then .error .internal
      else
        let ids := s.identities ++ [ident]
        .ok { s with identities := ids
                     state := if readyCheck C.auths ids then .ready else .awaitAuth }
    | .getCertOp req => (getCert C req now s).map (fun r => r.2)
    | .logout => .ok { s with state := .ended }

/-- Modelled from the spec: a fresh session (spec §3: created when a client
first presents itself; `expires_at > created_at` when `ttl > 0`). -/
def newSession (now ttl : Nat) : AuthContext :=
  { createdAt := now
    expiresAt := now + ttl
    identities := []
    pubkey := none
    certificate := none
    state := .created }

/-- Run a sequence of timed operations against a session, stopping at the
first failure. -/
def runSteps (C : ServerConfig) (evs : List (Nat × Op)) (s : AuthContext) :
    Except SrvError AuthContext :=
  match evs with
  | [] => .ok s
  | e :: rest =>
    match step C e.1 e.2 s with
    | .error err => .error err
    | .ok s1 => runSteps C rest s1

/-- The cert-reauth backend type tag (spec §4.C). -/
def certReauthType : String := "cert-reauth"

/-- Modelled from the spec: startup configuration validation (spec §8 S6,
with the stricter reading of §9): a realm whose required authenticators are
all of the cert-reauth type (and non-empty) is rejected with
`PolicyDenied`. -/
def validateAuthenticators (auths : List AuthenticatorSpec) : Except SrvError Unit :=
  let req := auths.filter (·.required)
  if req.isEmpty = false ∧ req.all (fun a => a.type = certReauthType) then
    .error .policyDenied
  else .ok ()

/-! ### Sample server inputs used by witnesses -/

/-- A required password authenticator. -/
def pwSpec : AuthenticatorSpec :=
  { id := "pw", type := "password", required := true, order := 1 }

/-- An identity produced by the `pw` authenticator. -/
def identAlice : Identity :=
  { subject := "alice", principals := ["alice", "dev"], authenticatorId := "pw" }

/-- A concrete glob matcher: a pattern matches exactly itself. -/
def eqGlob : String → String → Bool := fun pat p => pat = p

/-- A concrete deterministic signer. -/
def sampleSigner : CertTemplate → Cert := fun t => { tpl := t, signature := "sig" }

/-- A concrete one-authenticator realm. -/
def sampleServer : ServerConfig :=
  { auths := [pwSpec], globMatch := eqGlob, signer := sampleSigner }

/-! ### Effective principals (C5) -/

lemma allowedPrincipals_subset {auths : List AuthenticatorSpec} {i : Identity} {p : String}
    (h : p ∈ allowedPrincipals auths i) : p ∈ i.principals := by
  unfold allowedPrincipals at h
  split at h
  · split at h
    · exact (List.mem_filter.mp h).1
    · exact h
  · exact h

lemma mem_basePrincipals {auths : List AuthenticatorSpec} {ids : List Identity} {p : String}
    (h : p ∈ basePrincipals auths ids) : p ∈ (ids.map (fun i => i.principals)).flatten := by
  rw [basePrincipals, List.mem_dedup] at h
  obtain ⟨l, hl, hp⟩ := List.mem_flatten.mp h
  obtain ⟨i, hi, rfl⟩ := List.mem_map.mp hl
  exact List.mem_flatten.mpr ⟨i.principals, List.mem_map.mpr ⟨i, hi, rfl⟩,
    allowedPrincipals_subset hp⟩

lemma mem_applyIncludeExclude {gm : String → String → Bool} {inc exc : String}
    {ps : List String} {p : String} (h : p ∈ applyIncludeExclude gm inc exc ps) :
    p ∈ ps ∧ (inc ≠ "" → gm inc p = true) ∧ (exc ≠ "" → gm exc p = false) := by
  simp only [applyIncludeExclude] at h
  by_cases hexc : exc = ""
  · rw [if_pos hexc] at h
    by_cases hinc : inc = ""
    · rw [if_pos hinc] at h
      exact ⟨h, fun hc => absurd hinc hc, fun hc => absurd hexc hc⟩
    · rw [if_neg hinc] at h
      obtain ⟨hp, hg⟩ := List.mem_filter.mp h
      exact ⟨hp, fun _ => hg, fun hc => absurd hexc hc⟩
  · rw [if_neg hexc] at h
    obtain ⟨hk, hx⟩ := List.mem_filter.mp h
    have hxf : gm exc p = false := by simpa using hx
    by_cases hinc : inc = ""
    · rw [if_pos hinc] at hk
      exact ⟨hk, fun hc => absurd hinc hc, fun _ => hxf⟩
    · rw [if_neg hinc] at hk
      obtain ⟨hp, hg⟩ := List.mem_filter.mp hk
      exact ⟨hp, fun _ => hg, fun _ => hxf⟩

/-- Equality on `Except` results is decidable when it is on both sides. -/
instance {ε α : Type} [DecidableEq ε] [DecidableEq α] : DecidableEq (Except ε α) := fun x y =>
  match x, y with
  | .error a, .error b =>
    decidable_of_iff (a = b) ⟨fun h => by rw [h], fun h => by injection h⟩
  | .error _, .ok _ => isFalse (fun h => Except.noConfusion h)
  | .ok _, .error _ => isFalse (fun h => Except.noConfusion h)
  | .ok a, .ok b =>
    decidable_of_iff (a = b) ⟨fun h => by rw [h], fun h => by injection h⟩

/-- C5: the effective principal set of a request is contained in the union
of the identities' principal sets; a principal survives only if it matches
a non-empty include glob and fails a non-empty exclude glob (include first,
then exclude; empty globs pass everything); an empty effective set makes
signing fail with `NoEligiblePrincipals` instead of issuing. -/
theorem effective_principals_subset_and_globbed (C : ServerConfig) (inc exc : String)
    (ids : List Identity) :
    (∀ p ∈ effectivePrincipals C inc exc ids, p ∈ (ids.map (fun i => i.principals)).flatten)
    ∧ (∀ p ∈ effectivePrincipals C inc exc ids,
        (inc ≠ "" → C.globMatch inc p = true) ∧ (exc ≠ "" → C.globMatch exc p = false))
    ∧ (inc = "" → exc = "" → effectivePrincipals C inc exc ids = basePrincipals C.auths ids)
    ∧ (effectivePrincipals C inc exc ids = [] →
        selectPrincipals C inc exc ids = .error .noEligiblePrincipals)
    ∧ (∀ qs, selectPrincipals C inc exc ids = .ok qs →
        qs = effectivePrincipals C inc exc ids ∧ qs ≠ []) := by
  refine ⟨?_, ?_, ?_, ?_, ?_⟩
  · intro p hp
    exact mem_basePrincipals (mem_applyIncludeExclude hp).1
  · intro p hp
    exact (mem_applyIncludeExclude hp).2
  · intro hinc hexc
    unfold effectivePrincipals applyIncludeExclude
    simp [hinc, hexc]
  · intro hempty
    unfold selectPrincipals
    rw [if_pos (by simp [hempty])]
  · intro qs hqs
    simp only [selectPrincipals] at hqs
    split at hqs
    · exact absurd hqs (by simp)
    · next hne =>
      obtain rfl : effectivePrincipals C inc exc ids = qs := by
        simpa using hqs
      exact ⟨rfl, by simpa [List.isEmpty_iff] using hne⟩

/-- Witness for C5 at a concrete request: include glob `dev`, no exclude,
identity with principals `alice, dev`. -/
theorem effective_principals_subset_and_globbed_witness :
    "dev" ∈ (([identAlice].map (fun i => i.principals)).flatten)
    ∧ (["dev"] = effectivePrincipals sampleServer "dev" "" [identAlice]
        ∧ ["dev"] ≠ ([] : List String)) := by
  have h := effective_principals_subset_and_globbed sampleServer "dev" "" [identAlice]
  exact ⟨h.1 "dev" (by decide), h.2.2.2.2 ["dev"] (by decide)⟩

/-! ### Structure of successful `getCert` calls -/

/-- A successful `getCert` happens only on a live session and either
returns the cached certificate unchanged, or signs on a `Ready` session
without a certificate and attaches the result. -/
lemma getCert_ok_cases {C : ServerConfig} {req : CertRequest} {now : Nat}
    {s s1 : AuthContext} {c : Cert} (h : getCert C req now s = .ok (c, s1)) :
    ¬(s.expiresAt ≤ now) ∧ s.state ≠ .ended ∧
    ((s.certificate = some c ∧ s1 = s) ∨
      (s.certificate = none ∧ s.state = .ready ∧
        s1 = { s with certificate := some c, state := .issued })) := by
  by_cases htop : s.expiresAt ≤ now ∨ s.state = .ended
  · rw [getCert, if_pos htop] at h
    exact absurd h (by simp)
  · push_neg at htop
    refine ⟨by omega, htop.2, ?_⟩
    rw [getCert, if_neg (by push_neg; exact htop)] at h
    cases hcert : s.certificate with
    | some c0 =>
      rw [hcert] at h
      simp only [Except.ok.injEq, Prod.mk.injEq] at h
      exact Or.inl ⟨congrArg some h.1, h.2.symm⟩
    | none =>
      rw [hcert] at h
      by_cases hready : s.state = .ready
      · rw [if_neg (by simpa using hready)] at h
        cases hsel : selectPrincipals C req.includeGlob req.excludeGlob s.identities with
        | error e =>
          rw [hsel] at h
          exact absurd h (by simp)
        | ok ps =>
          rw [hsel] at h
          simp only [Except.ok.injEq, Prod.mk.injEq] at h
          exact Or.inr ⟨rfl, hready, by rw [← h.2, h.1]⟩
      · rw [if_pos (by simpa using hready)] at h
        exact absurd h (by simp)

/-- A session holding a certificate, still live, returns it unchanged. -/
lemma getCert_cached {C : ServerConfig} {req : CertRequest} {now : Nat}
    {s : AuthContext} {c : Cert} (hc : s.certificate = some c)
    (hend : s.state ≠ .ended) (hn : now < s.expiresAt) :
    getCert C req now s = .ok (c, s) := by
  rw [getCert, if_neg (by push_neg; exact ⟨by omega, hend⟩), hc]

/-- Any `getCert` on an expired session fails with `Unauthenticated`. -/
lemma getCert_expired {C : ServerConfig} {req : CertRequest} {now : Nat}
    {s : AuthContext} (hn : s.expiresAt ≤ now) :
    getCert C req now s = .error .unauthenticated := by
  rw [getCert, if_pos (Or.inl hn)]

/-! ### Invariants of the session state machine -/

/-- The `Ready` invariant: a ready session has completed every required
authenticator. -/
def ReadyInv (C : ServerConfig) (s : AuthContext) : Prop :=
  s.state = .ready → readyCheck C.auths s.identities = true

lemma step_dead {C : ServerConfig} {now : Nat} {op : Op} {s : AuthContext}
    (h : s.expiresAt ≤ now ∨ s.state = .ended) :
    step C now op s = .error .unauthenticated := by
  rw [step.eq_def, if_pos h]

lemma step_providePubkey {C : ServerConfig} {now : Nat} {k : String} {s : AuthContext}
    (h : ¬(s.expiresAt ≤ now ∨ s.state = .ended)) :
    step C now (.providePubkey k) s =
      if s.state = .created ∧ s.pubkey = none then
        .ok { s with pubkey := some k, state := .awaitAuth }
      else .error .badRequest := by
  rw [step.eq_def, if_neg h]

lemma step_authenticate {C : ServerConfig} {now : Nat} {aid : String} {ident : Identity}
    {s : AuthContext} (h : ¬(s.expiresAt ≤ now ∨ s.state = .ended)) :
    step C now (.authenticate aid ident) s =
      if ¬(s.state = .awaitAuth ∨ s.state = .ready) then .error .notReady
      else if ¬(C.auths.any (fun a => a.id = aid)) then .error .unknownAuthenticator
      else if ident.authenticatorId ≠ aid then .error .internal
      else .ok { s with identities := s.identities ++ [ident],
                        state := if readyCheck C.auths (s.identities ++ [ident])
                          then SessState.ready else SessState.awaitAuth } := by
  rw [step.eq_def, if_neg h]

lemma step_getCertOp {C : ServerConfig} {now : Nat} {req : CertRequest} {s : AuthContext}
    (h : ¬(s.expiresAt ≤ now ∨ s.state = .ended)) :
    step C now (.getCertOp req) s = (getCert C req now s).map (fun r => r.2) := by
  rw [step.eq_def, if_neg h]

lemma step_logout {C : ServerConfig} {now : Nat} {s : AuthContext}
    (h : ¬(s.expiresAt ≤ now ∨ s.state = .ended)) :
    step C now .logout s = .ok { s with state := .ended } := by
  rw [step.eq_def, if_neg h]

lemma step_preserves_ReadyInv {C : ServerConfig} {now : Nat} {op : Op}
    {s s1 : AuthContext} (hInv : ReadyInv C s) (h : step C now op s = .ok s1) :
    ReadyInv C s1 := by
  by_cases htop : s.expiresAt ≤ now ∨ s.state = .ended
  · rw [step_dead htop] at h
    exact absurd h (by simp)
  · cases op with
    | providePubkey k =>
      rw [step_providePubkey htop] at h
      split at h
      · obtain rfl : { s with pubkey := some k, state := SessState.awaitAuth } = s1 := by
          simpa using h
        intro hready
        simp at hready
      · exact absurd h (by simp)
    | authenticate aid ident =>
      rw [step_authenticate htop] at h
      split at h
      · exact absurd h (by simp)
      · split at h
        · exact absurd h (by simp)
        · split at h
          · exact absurd h (by simp)
          · obtain rfl :
                { s with identities := s.identities ++ [ident],
                         state := if readyCheck C.auths (s.identities ++ [ident])
                           then SessState.ready else SessState.awaitAuth } = s1 := by
              simpa using h
            intro hready
            simp only at hready ⊢
            by_cases hchk : readyCheck C.auths (s.identities ++ [ident]) = true
            · exact hchk
            · rw [if_neg hchk] at hready
              exact absurd hready (by simp)
    | getCertOp req =>
      rw [step_getCertOp htop] at h
      cases hg : getCert C req now s with
      | error e =>
        rw [hg] at h
        exact absurd h (by simp [Except.map])
      | ok r =>
        rw [hg] at h
        obtain rfl : r.2 = s1 := by simpa [Except.map] using h
        obtain ⟨-, -, hcases⟩ :=
          getCert_ok_cases (show getCert C req now s = .ok (r.1, r.2) by rw [hg])
        rcases hcases with ⟨-, hs⟩ | ⟨-, -, hs⟩
        · rw [hs]
          exact hInv
        · rw [hs]
          intro hx
          simp at hx
    | logout =>
      rw [step_logout htop] at h
      obtain rfl : { s with state := SessState.ended } = s1 := by simpa using h
      intro hready
      simp at hready

lemma runSteps_preserves_ReadyInv {C : ServerConfig} :
    ∀ {evs : List (Nat × Op)} {s s1 : AuthContext}, ReadyInv C s →
      runSteps C evs s = .ok s1 → ReadyInv C s1 := by
  intro evs
  induction evs with
  | nil =>
    intro s s1 hInv h
    obtain rfl : s = s1 := by simpa [runSteps] using h
    exact hInv
  | cons e rest ih =>
    intro s s1 hInv h
    rw [runSteps] at h
    cases hs : step C e.1 e.2 s with
    | error err =>
      rw [hs] at h
      exact absurd h (by simp)
    | ok s2 =>
      rw [hs] at h
      exact ih (step_preserves_ReadyInv hInv hs) h

/-- C6: in every session reachable from a fresh session, `Ready` implies
that each authenticator configured with `required = true` has a matching
identity in the session — the required set is contained in the completed
set. -/
theorem ready_implies_required_completed (C : ServerConfig) (evs : List (Nat × Op))
    (now ttl : Nat) (s1 : AuthContext)
    (h : runSteps C evs (newSession now ttl) = .ok s1) (hr : s1.state = .ready) :
    ∀ a ∈ C.auths, a.required = true → ∃ i ∈ s1.identities, i.authenticatorId = a.id := by
  have hInv : ReadyInv C (newSession now ttl) := by
    intro hx
    simp [newSession] at hx
  have hchk := runSteps_preserves_ReadyInv hInv h hr
  intro a ha har
  have hid : a.id ∈ requiredIds C.auths :=
    List.mem_map.mpr ⟨a, List.mem_filter.mpr ⟨ha, by simp [har]⟩, rfl⟩
  rw [readyCheck] at hchk
  have hcontains := List.all_eq_true.mp hchk a.id hid
  have hmem : a.id ∈ completedIds s1.identities := by simpa using hcontains
  obtain ⟨i, hi, heq⟩ := List.mem_map.mp hmem
  exact ⟨i, hi, heq⟩

/-- Witness for C6: a concrete run (pubkey, then password auth) reaches
`Ready`, and the required `pw` authenticator indeed has an identity. -/
theorem ready_implies_required_completed_witness :
    ∃ i ∈ [identAlice], i.authenticatorId = "pw" := by
  have h := ready_implies_required_completed sampleServer
    [(0, Op.providePubkey "k"), (1, Op.authenticate "pw" identAlice)] 0 100
    { createdAt := 0, expiresAt := 100, identities := [identAlice],
      pubkey := some "k", certificate := none, state := .ready }
    (by decide) rfl
  simpa using h pwSpec (by decide) rfl

/-! ### Certificate persistence (C4) -/

lemma step_preserves_cert {C : ServerConfig} {now : Nat} {op : Op}
    {s s1 : AuthContext} {c : Cert} (hc : s.certificate = some c)
    (h : step C now op s = .ok s1) :
    s1.certificate = some c ∧ s1.expiresAt = s.expiresAt := by
  by_cases htop : s.expiresAt ≤ now ∨ s.state = .ended
  · rw [step_dead htop] at h
    exact absurd h (by simp)
  · cases op with
    | providePubkey k =>
      rw [step_providePubkey htop] at h
      split at h
      · obtain rfl : { s with pubkey := some k, state := SessState.awaitAuth } = s1 := by
          simpa using h
        exact ⟨hc, rfl⟩
      · exact absurd h (by simp)
    | authenticate aid ident =>
      rw [step_authenticate htop] at h
      split at h
      · exact absurd h (by simp)
      · split at h
        · exact absurd h (by simp)
        · split at h
          · exact absurd h (by simp)
          · obtain rfl :
                { s with identities := s.identities ++ [ident],
                         state := if readyCheck C.auths (s.identities ++ [ident])
                           then SessState.ready else SessState.awaitAuth } = s1 := by
              simpa using h
            exact ⟨hc, rfl⟩
    | getCertOp req =>
      rw [step_getCertOp htop] at h
      cases hg : getCert C req now s with
      | error e =>
        rw [hg] at h
        exact absurd h (by simp [Except.map])
      | ok r =>
        rw [hg] at h
        obtain rfl : r.2 = s1 := by simpa [Except.map] using h
        obtain ⟨-, -, hcases⟩ :=
          getCert_ok_cases (show getCert C req now s = .ok (r.1, r.2) by rw [hg])
        rcases hcases with ⟨-, hs⟩ | ⟨hnone, -, -⟩
        · rw [hs]
          exact ⟨hc, rfl⟩
        · rw [hc] at hnone
          exact absurd hnone (by simp)
    | logout =>
      rw [step_logout htop] at h
      obtain rfl : { s with state := SessState.ended } = s1 := by simpa using h
      exact ⟨hc, rfl⟩

lemma runSteps_preserves_cert {C : ServerConfig} {c : Cert} :
    ∀ {evs : List (Nat × Op)} {s s1 : AuthContext}, s.certificate = some c →
      runSteps C evs s = .ok s1 → s1.certificate = some c := by
  intro evs
  induction evs with
  | nil =>
    intro s s1 hc h
    obtain rfl : s = s1 := by simpa [runSteps] using h
    exact hc
  | cons e rest ih =>
    intro s s1 hc h
    rw [runSteps] at h
    cases hs : step C e.1 e.2 s with
    | error err =>
      rw [hs] at h
      exact absurd h (by simp)
    | ok s2 =>
      rw [hs] at h
      exact ih (step_preserves_cert hc hs).1 h

/-- C4: after a successful `get_cert`, the session stores the certificate;
every later `get_cert` before `expires_at` returns the byte-identical
stored certificate (whatever request parameters it carries); along every
successful continuation of the session no other certificate is ever issued
— any successful `get_cert` still returns exactly the first certificate —
and once `expires_at` has passed every `get_cert` fails with
`Unauthenticated`. -/
theorem get_cert_idempotent_single_issue (C : ServerConfig) (req : CertRequest)
    (now : Nat) (s s1 : AuthContext) (c : Cert)
    (h : getCert C req now s = .ok (c, s1)) :
    s1.certificate = some c
    ∧ s1.expiresAt = s.expiresAt
    ∧ (∀ req2 now2, now2 < s1.expiresAt → getCert C req2 now2 s1 = .ok (c, s1))
    ∧ (∀ req2 now2, s1.expiresAt ≤ now2 →
        getCert C req2 now2 s1 = .error .unauthenticated)
    ∧ (∀ evs s2, runSteps C evs s1 = .ok s2 →
        s2.certificate = some c
        ∧ (∀ req2 now2 c2 s3, getCert C req2 now2 s2 = .ok (c2, s3) → c2 = c)
        ∧ (∀ req2 now2, s2.state ≠ .ended → now2 < s2.expiresAt →
            getCert C req2 now2 s2 = .ok (c, s2))) := by
  obtain ⟨hnow, hend, hcases⟩ := getCert_ok_cases h
  have hc1 : s1.certificate = some c := by
    rcases hcases with ⟨hc, rfl⟩ | ⟨-, -, rfl⟩
    · exact hc
    · rfl
  have hend1 : s1.state ≠ .ended := by
    rcases hcases with ⟨-, rfl⟩ | ⟨-, -, rfl⟩
    · exact hend
    · simp
  have hexp1 : s1.expiresAt = s.expiresAt := by
    rcases hcases with ⟨-, rfl⟩ | ⟨-, -, rfl⟩ <;> rfl
  refine ⟨hc1, hexp1, ?_, ?_, ?_⟩
  · intro req2 now2 hn
    exact getCert_cached hc1 hend1 hn
  · intro req2 now2 hn
    exact getCert_expired hn
  · intro evs s2 hrun
    have hc2 : s2.certificate = some c := runSteps_preserves_cert hc1 hrun
    refine ⟨hc2, ?_, ?_⟩
    · intro req2 now2 c2 s3 hg
      obtain ⟨-, -, hcs⟩ := getCert_ok_cases hg
      rcases hcs with ⟨hcc, -⟩ | ⟨hnone, -, -⟩
      · rw [hc2] at hcc
        exact (Option.some_inj.mp hcc).symm
      · rw [hc2] at hnone
        exact absurd hnone (by simp)
    · intro req2 now2 hend2 hn2
      exact getCert_cached hc2 hend2 hn2

/-- A session in `Ready` with identity `identAlice`, lifetime 100. -/
def readySession : AuthContext :=
  { createdAt := 0
    expiresAt := 100
    identities := [identAlice]
    pubkey := some "k"
    certificate := none
    state := .ready }

/-- A plain signing request. -/
def reqSample : CertRequest := { lifetime := 600 }

/-- The certificate `sampleServer` issues to `readySession` at time 50. -/
def certSample : Cert :=
  { tpl := { principals := ["alice", "dev"]
             validAfter := 20
             validBefore := 650
             keyId := "alice/pw"
             pubkey := "k" }
    signature := "sig" }

/-- `readySession` after the certificate is attached. -/
def signedSession : AuthContext :=
  { readySession with certificate := some certSample, state := .issued }

/-- Witness for C4: a concrete signing at time 50, a repeat at time 60
returning the same bytes, and failure at time 100 (expiry). -/
theorem get_cert_idempotent_single_issue_witness :
    signedSession.certificate = some certSample
    ∧ getCert sampleServer reqSample 60 signedSession = .ok (certSample, signedSession)
    ∧ getCert sampleServer reqSample 100 signedSession = .error .unauthenticated := by
  have h := get_cert_idempotent_single_issue sampleServer reqSample 50 readySession
    signedSession certSample (by decide)
  exact ⟨h.1, h.2.2.1 reqSample 60 (by decide), h.2.2.2.1 reqSample 100 (by decide)⟩

/-! ### Cert-reauth may not stand alone (C7) -/

/-- C7: a configuration whose required authenticators are all of the
cert-reauth type (so cert-reauth is the only required authenticator) is
rejected at startup configuration validation with `PolicyDenied`. -/
theorem sole_cert_reauth_rejected (auths : List AuthenticatorSpec)
    (h1 : auths.filter (fun a => a.required) ≠ [])
    (h2 : ∀ a ∈ auths, a.required = true → a.type = certReauthType) :
    validateAuthenticators auths = .error .policyDenied := by
  rw [validateAuthenticators]
  rw [if_pos ?_]
  constructor
  · cases hf : auths.filter (fun a => a.required) with
    | nil => exact absurd hf h1
    | cons x t => simp [hf]
  · rw [List.all_eq_true]
    intro a ha
    have hmem := List.mem_filter.mp ha
    have := h2 a hmem.1 (by simpa using hmem.2)
    simpa using this

/-- A required cert-reauth authenticator. -/
def reauthSpec : AuthenticatorSpec :=
  { id := "reauth", type := "cert-reauth", required := true, order := 1 }

/-- Witness for C7 at the concrete one-authenticator configuration. -/
theorem sole_cert_reauth_rejected_witness :
    validateAuthenticators [reauthSpec] = .error .policyDenied :=
  sole_cert_reauth_rejected [reauthSpec] (by decide) (by decide)

end SshInscribe
